import Mathlib

/-!
Verification development for the PlantTrackR client-side state model.

The definitions below are a shallow embedding of the JavaScript source
(src/unnamed/part_004, src/js/main.js, src/js/quickcards_final.js):
plain data becomes Lean structures, in-place mutation becomes explicit
state passing, and the JavaScript runtime facilities the code relies on
(string-to-number coercion, parseInt, the Date constructor with its
rollover semantics, Set and plain-object maps) are modelled explicitly.
The wall clock and the random identifier generator are nondeterministic
inputs of the program, so they appear as explicit parameters (today,
fresh) of the embedded operations.
-/

namespace PlantTrackR

/-! ## JavaScript value helpers

Optional string arguments: none models the JavaScript undefined value.
A string is falsy exactly when it is empty. -/

/-- Models the JavaScript expression (x || d) where x is a string or
undefined: undefined and the empty string are falsy. -/
def jsOrDefault (x : Option String) (d : String) : String :=
  match x with
  | none => d
  | some s => if s = "" then d else s

/-- Models (x || two-char-empty-default) for the optional free-text plant
attributes: identical to jsOrDefault with the empty string default. -/
def jsOrEmpty (x : Option String) : String := jsOrDefault x ""

/-! ## Plant data model (class Plant, part_004 lines 1115-1192) -/

/-- PLANT_PHASES constant (part_004 lines 996-1004). -/
def PLANT_PHASES : List String :=
  ["Seedling", "Mutter", "Vegetative", "Flowering", "Drying", "Curing", "Harvested"]

/-- PLANT_PHASES[0], the default phase assigned by the Plant constructor. -/
def defaultPhase : String := PLANT_PHASES.headD ""

/-- An entry of plant.events: a record with a type and a date string. -/
structure PlantEvent where
  type : String
  date : String
deriving DecidableEq, Repr

/-- An entry of plant.heightData. Measurement magnitudes play no role in
the verified claims, so the numeric JavaScript value is embedded as Int. -/
structure HeightEntry where
  height : Int
  date : String
deriving DecidableEq, Repr

/-- An entry of plant.weightData. -/
structure WeightEntry where
  weight : Int
  date : String
deriving DecidableEq, Repr

/-- The Plant entity: all own fields of a Plant instance. -/
structure Plant where
  name : String
  seedDate : String
  strain : String
  growMedium : String
  lightCycle : String
  nutrientSchedule : String
  events : List PlantEvent
  phase : String
  id : String
  heightData : List HeightEntry
  weightData : List WeightEntry
deriving DecidableEq, Repr

/-- The Plant constructor (part_004 lines 1116-1128).  Optional arguments
model arguments that may be undefined at a call site; fresh models the
value generateUUID() would return for this construction. -/
def Plant.make (name seedDate : String) (id : Option String)
    (strain growMedium lightCycle nutrientSchedule : Option String)
    (fresh : String) : Plant :=
  { name := name
    seedDate := seedDate
    strain := jsOrEmpty strain
    growMedium := jsOrEmpty growMedium
    lightCycle := jsOrEmpty lightCycle
    nutrientSchedule := jsOrEmpty nutrientSchedule
    events := []
    phase := defaultPhase
    id := jsOrDefault id fresh
    heightData := []
    weightData := [] }

/-- Plant.addEvent (part_004 lines 1137-1141).  The JavaScript method also
returns the created record; the created record is determined by the
arguments, so the embedding returns the updated plant. -/
def Plant.addEvent (p : Plant) (eventType date : String) : Plant :=
  { p with events := p.events ++ [{ type := eventType, date := date }] }

/-- Plant.updatePhase (part_004 lines 1184-1191): sets the phase and then
appends a synthetic event dated with the current date.  The today
parameter models the string new Date().toISOString().split(T)[0]. -/
def Plant.updatePhase (p : Plant) (newPhase today : String) : Plant :=
  Plant.addEvent { p with phase := newPhase } ("Phase Changed to " ++ newPhase) today

/-! ## JavaScript number and date semantics

parseDate (part_004 lines 1593-1614) relies on the JavaScript runtime:
String.prototype.split, the isNaN string-to-number coercion, parseInt,
and the Date(year, monthIndex, day) constructor with its out-of-range
rollover.  These are modelled below following the ECMAScript semantics. -/

/-- Decimal digit test. -/
def isDecDigit (c : Char) : Bool := '0' ≤ c && c ≤ '9'

/-- Value of a digit character in a radix up to 16 (99 for non-digits, so
that the radix bound test rejects them). -/
def radixDigitVal (c : Char) : Nat :=
  if isDecDigit c then c.toNat - 48
  else if 'a' ≤ c && c ≤ 'f' then c.toNat - 87
  else if 'A' ≤ c && c ≤ 'F' then c.toNat - 55
  else 99

/-- Digit test for a given radix. -/
def isRadixDigit (r : Nat) (c : Char) : Bool := radixDigitVal c < r

/-- Numeric value of a digit string in a given radix. -/
def radixVal (r : Nat) (ds : List Char) : Nat :=
  ds.foldl (fun a c => a * r + radixDigitVal c) 0

/-- Numeric value of a decimal digit string. -/
def decDigitsVal (ds : List Char) : Nat := radixVal 10 ds

/-- ECMAScript WhiteSpace and LineTerminator characters stripped by the
string-to-number coercion (the common ones; exotic Unicode spaces do not
occur in the verified inputs). -/
def isJsSpace (c : Char) : Bool :=
  c = ' ' || c = '\t' || c = '\n' || c = '\r' ||
  c.toNat = 11 || c.toNat = 12 || c.toNat = 160 || c.toNat = 65279

/-- Strips leading and trailing JavaScript whitespace from a char list. -/
def jsTrimList (cs : List Char) : List Char :=
  ((cs.dropWhile isJsSpace).reverse.dropWhile isJsSpace).reverse

/-- Models String.prototype.split with a single-character separator:
splitting the empty string yields one empty segment, adjacent separators
yield empty segments, and a trailing separator yields a final empty
segment. -/
def jsSplitAux (sep : Char) : List Char → List Char → List String
  | [], cur => [String.mk cur.reverse]
  | c :: cs, cur =>
    if c = sep then String.mk cur.reverse :: jsSplitAux sep cs []
    else jsSplitAux sep cs (c :: cur)

/-- JavaScript s.split(sep) for a one-character separator. -/
def jsSplit (s : String) (sep : Char) : List String := jsSplitAux sep s.toList []

/-- A JavaScript number as produced by string coercion: NaN, a signed
infinity, or a finite value represented exactly as mantissa times a power
of ten (fin m e stands for m * 10 ^ e).  Finite values are never compared
numerically by the embedded code, only truncated to integers. -/
inductive JsNum where
  | nan : JsNum
  | inf : Bool → JsNum
  | fin : Int → Int → JsNum
deriving DecidableEq, Repr

/-- Negation of a JavaScript number. -/
def JsNum.neg : JsNum → JsNum
  | nan => nan
  | inf b => inf (!b)
  | fin m e => fin (-m) e

/-- Subtracting one from a JavaScript number (used for month - 1). -/
def JsNum.sub1 : JsNum → JsNum
  | nan => nan
  | inf b => inf b
  | fin m e =>
    if 0 ≤ e then fin (m * 10 ^ e.toNat - 1) 0
    else fin (m - 10 ^ (-e).toNat) e

/-- ToIntegerOrInfinity on a finite value: truncation toward zero. -/
def truncFin (m e : Int) : Int :=
  if 0 ≤ e then m * 10 ^ e.toNat else Int.tdiv m (10 ^ (-e).toNat)

/-- Exponent digits of a numeric literal: all remaining characters must be
decimal digits and there must be at least one. -/
def parseExpDigits (ds : List Char) (pos : Bool) : Option Int :=
  if ds ≠ [] ∧ ds.all isDecDigit then
    some (if pos then (decDigitsVal ds : Int) else -(decDigitsVal ds : Int))
  else none

/-- Optional ExponentPart of a decimal literal; an empty rest is exponent
zero, anything that is not a complete exponent makes the literal invalid. -/
def parseExpPart : List Char → Option Int
  | [] => some 0
  | c :: cs =>
    if c = 'e' ∨ c = 'E' then
      match cs with
      | '+' :: ds => parseExpDigits ds true
      | '-' :: ds => parseExpDigits ds false
      | ds => parseExpDigits ds true
    else none

/-- Unsigned decimal literal: digits [. digits] [exponent] or
. digits [exponent]; anything else is NaN. -/
def jsDecimalLit (cs : List Char) : JsNum :=
  let ip := cs.takeWhile isDecDigit
  let r1 := cs.dropWhile isDecDigit
  match r1 with
  | '.' :: t =>
    let fp := t.takeWhile isDecDigit
    let r2 := t.dropWhile isDecDigit
    if ip = [] ∧ fp = [] then .nan
    else
      match parseExpPart r2 with
      | some e => .fin (decDigitsVal (ip ++ fp) : Int) (e - fp.length)
      | none => .nan
  | _ =>
    if ip = [] then .nan
    else
      match parseExpPart r1 with
      | some e => .fin (decDigitsVal ip : Int) e
      | none => .nan

/-- Unsigned numeric literal: the literal Infinity or a decimal literal. -/
def jsUnsignedLit (cs : List Char) : JsNum :=
  if cs = ['I', 'n', 'f', 'i', 'n', 'i', 't', 'y'] then .inf true
  else jsDecimalLit cs

/-- Radix-prefixed literal (0x, 0o, 0b): all characters must be digits of
the radix and there must be at least one. -/
def jsRadixLit (r : Nat) (ds : List Char) : JsNum :=
  if ds ≠ [] ∧ ds.all (isRadixDigit r) then .fin (radixVal r ds : Int) 0
  else .nan

/-- StringNumericLiteral body after trimming: an optional sign followed by
an unsigned literal, or an unsigned radix-prefixed literal. -/
def jsStrNumLit : List Char → JsNum
  | '+' :: rest => jsUnsignedLit rest
  | '-' :: rest => (jsUnsignedLit rest).neg
  | '0' :: c :: rest =>
    if c = 'x' ∨ c = 'X' then jsRadixLit 16 rest
    else if c = 'o' ∨ c = 'O' then jsRadixLit 8 rest
    else if c = 'b' ∨ c = 'B' then jsRadixLit 2 rest
    else jsUnsignedLit ('0' :: c :: rest)
  | cs => jsUnsignedLit cs

/-- ECMAScript ToNumber on a string: trim whitespace, the empty string is
zero, otherwise parse as a numeric literal.  isNaN(s) holds exactly when
this returns nan. -/
def jsToNumber (s : String) : JsNum :=
  let cs := jsTrimList s.toList
  if cs = [] then .fin 0 0 else jsStrNumLit cs

/-- Body of parseInt after sign handling: auto-detects a 0x prefix, then
takes the longest digit prefix; NaN (none) when there is no digit. -/
def jsParseIntBody (cs : List Char) (pos : Bool) : Option Int :=
  let rd : Nat × List Char :=
    match cs with
    | '0' :: c :: rest => if c = 'x' ∨ c = 'X' then (16, rest) else (10, cs)
    | _ => (10, cs)
  let digs := rd.2.takeWhile (isRadixDigit rd.1)
  if digs = [] then none
  else some (if pos then (radixVal rd.1 digs : Int) else -(radixVal rd.1 digs : Int))

/-- ECMAScript parseInt with no radix argument: leading whitespace and an
optional sign, then the longest digit prefix (trailing junk is ignored);
none models NaN. -/
def jsParseInt (s : String) : Option Int :=
  match s.toList.dropWhile isJsSpace with
  | '+' :: rest => jsParseIntBody rest true
  | '-' :: rest => jsParseIntBody rest false
  | rest => jsParseIntBody rest true

/-- Days since 1970-01-01 of a proleptic Gregorian civil date (month in
1..12); the standard era-based civil calendar algorithm with floor
division. -/
def daysFromCivil (y m d : Int) : Int :=
  let yAdj := if m ≤ 2 then y - 1 else y
  let era := Int.fdiv yAdj 400
  let yoe := yAdj - era * 400
  let mp := if 3 ≤ m then m - 3 else m + 9
  let doy := Int.fdiv (153 * mp + 2) 5 + d - 1
  let doe := yoe * 365 + Int.fdiv yoe 4 - Int.fdiv yoe 100 + doy
  era * 146097 + doe - 719468

/-- Civil date (year, month 1..12, day) of a day count since 1970-01-01:
inverse of daysFromCivil. -/
def civilFromDays (z0 : Int) : Int × Int × Int :=
  let z := z0 + 719468
  let era := Int.fdiv z 146097
  let doe := z - era * 146097
  let yoe := Int.fdiv (doe - Int.fdiv doe 1460 + Int.fdiv doe 36524 - Int.fdiv doe 146096) 365
  let y := yoe + era * 400
  let doy := doe - (365 * yoe + Int.fdiv yoe 4 - Int.fdiv yoe 100)
  let mp := Int.fdiv (5 * doy + 2) 153
  let d := doy - Int.fdiv (153 * mp + 2) 5 + 1
  let m := if mp < 10 then mp + 3 else mp - 9
  (if m ≤ 2 then y + 1 else y, m, d)

/-- The day count of new Date(y, m, d) per MakeDay/MakeDate/TimeClip:
NaN (none) unless all three arguments are finite; a year argument 0..99
means 1900 + year; months roll into years and days roll into months; the
result is an invalid date (none) outside the representable range of
100000000 days from the epoch. -/
def jsMakeDate (y m d : JsNum) : Option Int :=
  match y, m, d with
  | .fin ym ye, .fin mm me, .fin dm de =>
    let yi := truncFin ym ye
    let yr := if 0 ≤ yi ∧ yi ≤ 99 then 1900 + yi else yi
    let mi := truncFin mm me
    let di := truncFin dm de
    let ymo := yr + Int.fdiv mi 12
    let mn := Int.fmod mi 12
    let t := daysFromCivil ymo (mn + 1) 1 + (di - 1)
    if t.natAbs ≤ 100000000 then some t else none
  | _, _, _ => none

/-- JavaScript strict inequality (!==) between two number values that may
be NaN (none): NaN compares unequal to everything, including NaN. -/
def jsStrictNe (a b : Option Int) : Bool :=
  match a, b with
  | some x, some y => x != y
  | _, _ => true

/-- PlantManager.parseDate (part_004 lines 1593-1614): reject a falsy
string, split on the hyphen into exactly three segments, reject if any
segment coerces to NaN, build the Date, then reject unless the year,
month index and day of the built date round-trip against parseInt of the
segments.  The result models the returned Date object by its day count
(none models a null return). -/
def parseDate (dateStr : String) : Option Int :=
  if dateStr = "" then none
  else
    let parts := jsSplit dateStr '-'
    if parts.length ≠ 3 then none
    else
      let year := parts.getD 0 ""
      let month := parts.getD 1 ""
      let day := parts.getD 2 ""
      if jsToNumber year = .nan ∨ jsToNumber month = .nan ∨ jsToNumber day = .nan then
        none
      else
        let date := jsMakeDate (jsToNumber year) (jsToNumber month).sub1 (jsToNumber day)
        if jsStrictNe (date.map fun t => (civilFromDays t).1) (jsParseInt year) ||
           jsStrictNe (date.map fun t => (civilFromDays t).2.1 - 1)
             ((jsParseInt month).map (· - 1)) ||
           jsStrictNe (date.map fun t => (civilFromDays t).2.2) (jsParseInt day) then
          none
        else date

/-! ## Registry transient state containers

this.expandedEvents is a plain JavaScript object used as a map from plant
id to bool: embedded as an insertion-ordered association list.
this.selectedPlants is a JavaScript Set of plant ids: embedded as an
insertion-ordered duplicate-free list. -/

/-- Object property read (undefined modelled as none). -/
def objLookup (m : List (String × Bool)) (k : String) : Option Bool :=
  (m.find? (fun kv => kv.1 == k)).map (·.2)

/-- Object property write: updates the entry in place when the key exists,
otherwise appends it (insertion order). -/
def objSet (m : List (String × Bool)) (k : String) (v : Bool) : List (String × Bool) :=
  if m.any (fun kv => kv.1 == k) then
    m.map (fun kv => if kv.1 == k then (kv.1, v) else kv)
  else m ++ [(k, v)]

/-- The delete operator on an object property (a no-op when absent). -/
def objDelete (m : List (String × Bool)) (k : String) : List (String × Bool) :=
  m.filter (fun kv => kv.1 != k)

/-- Set.prototype.has. -/
def setHas (s : List String) (k : String) : Bool := s.contains k

/-- Set.prototype.add: appends unless already a member. -/
def setAdd (s : List String) (k : String) : List String :=
  if s.contains k then s else s ++ [k]

/-! ## PlantManager state (part_004 lines 1205-1236) -/

/-- The in-memory fields of the PlantManager singleton that the embedded
operations read and write.  Persistence writes go to localStorage and the
render calls rebuild the DOM; both are outside the in-memory state, and
neither feeds back into it within one operation. -/
structure ManagerState where
  plants : List Plant
  archivedPlants : List Plant
  selectedPlants : List String
  expandedEvents : List (String × Bool)
  currentTab : String
deriving DecidableEq, Repr

/-- PlantManager.addPlant (part_004 lines 1407-1443).  The fresh parameter
models the generateUUID() result used for the new plant id.  The source
checks this.selectedPlants.size after pushing the plant; the push does not
touch the selection, so checking before is equivalent. -/
def addPlant (s : ManagerState) (name seedDate : String)
    (strain growMedium lightCycle nutrientSchedule : Option String)
    (fresh : String) : Bool × ManagerState :=
  if name = "" ∨ seedDate = "" then (false, s)
  else if (parseDate seedDate).isNone then (false, s)
  else
    let newPlant :=
      Plant.make name seedDate none strain growMedium lightCycle nutrientSchedule fresh
    (true,
      { s with
        expandedEvents := objSet s.expandedEvents newPlant.id false
        plants := s.plants ++ [newPlant]
        selectedPlants :=
          if s.selectedPlants.length > 0 then setAdd s.selectedPlants newPlant.id
          else s.selectedPlants })

/-- PlantManager.addEventToSelectedPlants (part_004 lines 1451-1494):
validation up front (empty selection, empty type, invalid date) returns
zero without touching any plant; otherwise one event is pushed onto every
plant whose id is in the selection and the number of such plants is
returned. -/
def addEventToSelectedPlants (s : ManagerState) (eventType date : String) :
    Nat × ManagerState :=
  if s.selectedPlants.length = 0 then (0, s)
  else if eventType = "" then (0, s)
  else if (parseDate date).isNone then (0, s)
  else
    (((s.plants.filter (fun p => setHas s.selectedPlants p.id)).length),
      { s with
        plants := s.plants.map (fun p =>
          if setHas s.selectedPlants p.id then p.addEvent eventType date else p) })

/-- PlantManager.archivePlant (part_004 lines 2008-2023): moves the plant
at the given index from the active to the archived collection (appended at
the end) and deletes its expanded-state entry.  The selection set is not
touched. -/
def archivePlant (s : ManagerState) (index : Nat) : Bool × ManagerState :=
  match s.plants.get? index with
  | some p =>
    (true,
      { s with
        plants := s.plants.eraseIdx index
        expandedEvents := objDelete s.expandedEvents p.id
        archivedPlants := s.archivedPlants ++ [p] })
  | none => (false, s)

/-- PlantManager.unarchivePlant (part_004 lines 2030-2045): moves the
plant at the given index of the archived collection back to the end of the
active collection and re-creates its expanded-state entry as collapsed. -/
def unarchivePlant (s : ManagerState) (index : Nat) : Bool × ManagerState :=
  match s.archivedPlants.get? index with
  | some p =>
    (true,
      { s with
        archivedPlants := s.archivedPlants.eraseIdx index
        expandedEvents := objSet s.expandedEvents p.id false
        plants := s.plants ++ [p] })
  | none => (false, s)

/-- PlantManager.deleteArchivedPlant (part_004 lines 2052-2064): removes
the plant at the given index of the archived collection and deletes its
expanded-state entry.  The selection set is not touched. -/
def deleteArchivedPlant (s : ManagerState) (index : Nat) : Bool × ManagerState :=
  match s.archivedPlants.get? index with
  | some p =>
    (true,
      { s with
        archivedPlants := s.archivedPlants.eraseIdx index
        expandedEvents := objDelete s.expandedEvents p.id })
  | none => (false, s)

/-- Lower-casing of a string, character by character (models
String.prototype.toLowerCase on the phase names, which are ASCII). -/
def strToLower (s : String) : String := String.mk (s.toList.map Char.toLower)

/-- PlantManager.filterPlantsByPhase (part_004 lines 2599-2605). -/
def filterPlantsByPhase (s : ManagerState) (phase : String) : List Plant :=
  if phase = "all" then s.plants
  else s.plants.filter (fun p => strToLower p.phase == phase)

/-- The delete button click handler inside renderPlants (part_004 lines
2340-2369), with the confirmation accepted: the handler closure captures
the rendered plant (an element of the filtered list) and its index in that
filtered list; it deletes the expanded-state entry of the captured plant
and splices this.plants at the captured index.  The expanded-state
snapshot it takes is made after the deletion and written back unchanged,
so it has no net in-memory effect.  The selection set is not touched. -/
def deletePlantClick (s : ManagerState) (index : Nat) : ManagerState :=
  match (filterPlantsByPhase s s.currentTab).get? index with
  | some plant =>
    { s with
      expandedEvents := objDelete s.expandedEvents plant.id
      plants := s.plants.eraseIdx index }
  | none => s

/-! ## Import (part_004 lines 1952-2001)

The function importPlants parses its argument with JSON.parse; the parse
result is embedded as an optional JSON value (none models a parse
exception). -/

/-- A parsed JSON value.  Numeric payloads are embedded as Int: the
importing flow never reads a numeric field back, it only stores it. -/
inductive Js where
  | null : Js
  | bool : Bool → Js
  | num : Int → Js
  | str : String → Js
  | arr : List Js → Js
  | obj : List (String × Js) → Js

/-- Whether a JSON value is an array (Array.isArray). -/
def Js.isArr : Js → Bool
  | .arr _ => true
  | _ => false

/-- Property access on a parsed JSON value; undefined is modelled as none.
Property access on any non-null value yields undefined rather than
throwing; access on null throws and is handled at the call site. -/
def Js.getField : Js → String → Option Js
  | .obj kvs, k => (kvs.find? (fun kv => kv.1 == k)).map (·.2)
  | _, _ => none

/-- A string-valued field with the empty string for absent values.  An
absent field and a non-string field value are both embedded as the empty
string: the import flow never reads these values back, so the embedding
only needs to be faithful about which elements throw, which is decided
before any field is read. -/
def Js.strFieldD (j : Js) (k : String) : String :=
  match j.getField k with
  | some (.str s) => s
  | _ => ""

/-- A numeric field with zero for absent values (same embedding note as
strFieldD). -/
def Js.numFieldD (j : Js) (k : String) : Int :=
  match j.getField k with
  | some (.num n) => n
  | _ => 0

/-- The events field: taken over verbatim when it is an array (the source
guard p.events && Array.isArray(p.events)), the constructor default
otherwise. -/
def Js.eventsField (j : Js) : List PlantEvent :=
  match j.getField "events" with
  | some (.arr es) => es.map (fun e => { type := e.strFieldD "type", date := e.strFieldD "date" })
  | _ => []

/-- The heightData field under the same array guard. -/
def Js.heightField (j : Js) : List HeightEntry :=
  match j.getField "heightData" with
  | some (.arr es) => es.map (fun e => { height := e.numFieldD "height", date := e.strFieldD "date" })
  | _ => []

/-- The weightData field under the same array guard. -/
def Js.weightField (j : Js) : List WeightEntry :=
  match j.getField "weightData" with
  | some (.arr es) => es.map (fun e => { weight := e.numFieldD "weight", date := e.strFieldD "date" })
  | _ => []

/-- One element of the imported array turned into a Plant (the map body
of importPlants, part_004 lines 1962-1986).  A null element throws a
TypeError at p.name (none); any other element succeeds: the code performs
no required-field check, missing fields are simply undefined. -/
def plantOfImportJs (fresh : String) (p : Js) : Option Plant :=
  match p with
  | .null => none
  | _ =>
    some
      { name := p.strFieldD "name"
        seedDate := p.strFieldD "seedDate"
        strain := p.strFieldD "strain"
        growMedium := p.strFieldD "growMedium"
        lightCycle := p.strFieldD "lightCycle"
        nutrientSchedule := p.strFieldD "nutrientSchedule"
        events := p.eventsField
        phase := if p.strFieldD "phase" = "" then defaultPhase else p.strFieldD "phase"
        id := if p.strFieldD "id" = "" then fresh else p.strFieldD "id"
        heightData := p.heightField
        weightData := p.weightField }

/-- Array.prototype.map over the imported elements: the map throws out of
the whole call at the first element whose conversion throws. -/
def importMapM (f : Nat → Js → Option Plant) : Nat → List Js → Option (List Plant)
  | _, [] => some []
  | i, e :: es =>
    match f i e with
    | none => none
    | some p => (importMapM f (i + 1) es).map (p :: ·)

/-- PlantManager.importPlants (part_004 lines 1952-2001).  input is the
JSON.parse result (none when parsing threw); freshIds models the
generateUUID() results for elements without an id.  Note the order of
effects in the source: this.expandedEvents is reset to the empty object
before the element map runs, so an element that throws leaves the reset
behind while the plants are still untouched. -/
def importPlants (s : ManagerState) (input : Option Js) (freshIds : Nat → String) :
    Bool × ManagerState :=
  match input with
  | none => (false, s)
  | some (.arr elems) =>
    let s1 := { s with expandedEvents := ([] : List (String × Bool)) }
    match importMapM (fun i e => plantOfImportJs (freshIds i) e) 0 elems with
    | none => (false, s1)
    | some ps =>
      (true,
        { s1 with
          plants := ps
          expandedEvents := ps.foldl (fun m p => objSet m p.id false) [] })
  | some _ => (false, s)

/-! ## Loading the archived collection (part_004 lines 1381-1394)

A plant serialized by JSON.stringify carries exactly the Plant fields, so
the stored shape of an archived plant is embedded as a Plant value. -/

/-- The map body of loadArchivedPlants: new Plant(p.name, p.seedDate,
p.id) followed by restoring only the events array.  Phase, the free-text
attributes and the measurement series are left at the constructor
defaults. -/
def loadArchivedPlant (fresh : String) (stored : Plant) : Plant :=
  let base := Plant.make stored.name stored.seedDate (some stored.id) none none none none fresh
  { base with events := stored.events }

/-- The indexed map underlying loadArchivedPlants. -/
def loadArchivedPlantsAux (freshIds : Nat → String) : Nat → List Plant → List Plant
  | _, [] => []
  | i, sp :: rest => loadArchivedPlant (freshIds i) sp :: loadArchivedPlantsAux freshIds (i + 1) rest

/-- PlantManager.loadArchivedPlants applied to a stored archived
collection. -/
def loadArchivedPlants (freshIds : Nat → String) (stored : List Plant) : List Plant :=
  loadArchivedPlantsAux freshIds 0 stored

/-! ## QuickCard (part_004 lines 3754-3785; same class in
src/js/quickcards_final.js lines 10-41) -/

/-- The QuickCard entity. -/
structure QuickCard where
  id : String
  label : String
  inputDetails : String
  icon : String
  pinned : Bool
deriving DecidableEq, Repr

/-- The plain-data shape produced by QuickCard.toJSON. -/
structure QuickCardJson where
  id : String
  label : String
  inputDetails : String
  icon : String
  pinned : Bool
deriving DecidableEq, Repr

/-- The QuickCard constructor: generates an id (the fresh parameter models
the generateUUID() result), defaults the icon when the argument is
undefined, and always starts unpinned. -/
def QuickCard.make (label inputDetails : String) (icon : Option String)
    (fresh : String) : QuickCard :=
  { id := fresh
    label := label
    inputDetails := inputDetails
    icon := icon.getD "📝"
    pinned := false }

/-- QuickCard.toJSON: the plain record of the five fields. -/
def QuickCard.toJSON (q : QuickCard) : QuickCardJson :=
  { id := q.id
    label := q.label
    inputDetails := q.inputDetails
    icon := q.icon
    pinned := q.pinned }

/-- QuickCard.fromJSON: calls the constructor with the label, details and
icon taken from the record.  The constructor generates a new id and sets
pinned to false; the record fields id and pinned are not consulted. -/
def QuickCard.fromJSON (json : QuickCardJson) (fresh : String) : QuickCard :=
  QuickCard.make json.label json.inputDetails (some json.icon) fresh

/-! ## Quick card drop (QuickCardManager.logQuickCardToPlant, part_004
lines 4039-4076 — the variant loaded by index.html, which operates on the
live in-memory collection and carries the duplicate guard) -/

/-- Replaces the first list element satisfying the predicate by its image
under f: models mutating in place the object returned by Array.find. -/
def modifyFirst (pred : Plant → Bool) (f : Plant → Plant) : List Plant → List Plant
  | [] => []
  | p :: ps => if pred p then f p :: ps else p :: modifyFirst pred f ps

/-- QuickCardManager.logQuickCardToPlant: looks the target plant up by id
in the live active collection (no mutation when absent); when an event
with the cards label and the current date already exists on that plant the
drop is a no-op, otherwise one event is appended via Plant.addEvent.
label is quickCardData.label and today models the current date string. -/
def logQuickCardToPlant (s : ManagerState) (plantId label today : String) :
    ManagerState :=
  match s.plants.find? (fun p => p.id == plantId) with
  | none => s
  | some plant =>
    if plant.events.any (fun e => e.type == label && e.date == today) then s
    else
      { s with
        plants := modifyFirst (fun p => p.id == plantId)
          (fun p => p.addEvent label today) s.plants }

/-! ## Specification-side definition for the date-format claim -/

/-- Whether a year is a leap year (Gregorian rule). -/
def isLeapYear (y : Int) : Bool :=
  (Int.fmod y 4 = 0 && Int.fmod y 100 ≠ 0) || Int.fmod y 400 = 0

/-- Number of days in a month (month in 1..12). -/
def daysInMonth (y m : Int) : Int :=
  if m = 2 then (if isLeapYear y then 29 else 28)
  else if m = 4 ∨ m = 6 ∨ m = 9 ∨ m = 11 then 30
  else 31

/-- Follows the specification wording, for comparison with parseDate: a
strict YYYY-MM-DD string is four decimal digits, a hyphen, two decimal
digits, a hyphen and two decimal digits, whose segments denote a
calendar-valid date. -/
def specStrictYMD (s : String) : Bool :=
  match s.toList with
  | [y1, y2, y3, y4, h1, m1, m2, h2, d1, d2] =>
    [y1, y2, y3, y4, m1, m2, d1, d2].all isDecDigit && h1 = '-' && h2 = '-' &&
      (let y : Int := decDigitsVal [y1, y2, y3, y4]
       let m : Int := decDigitsVal [m1, m2]
       let d : Int := decDigitsVal [d1, d2]
       1 ≤ m && m ≤ 12 && 1 ≤ d && d ≤ daysInMonth y m)
  | _ => false

/-! ## Concrete sample data used to instantiate the verified properties -/

/-- A concrete plant with every field at a non-default value. -/
def samplePlant : Plant :=
  { name := "Aloe"
    seedDate := "2024-01-01"
    strain := "Blue Dream"
    growMedium := "Soil"
    lightCycle := "18/6"
    nutrientSchedule := "GH"
    events := [{ type := "Watered", date := "2024-01-02" }]
    phase := "Flowering"
    id := "p1"
    heightData := [{ height := 10, date := "2024-01-03" }]
    weightData := [{ weight := 5, date := "2024-01-04" }] }

/-- A concrete manager state holding samplePlant, with the plant selected
and its events panel expanded. -/
def sampleState : ManagerState :=
  { plants := [samplePlant]
    archivedPlants := []
    selectedPlants := ["p1"]
    expandedEvents := [("p1", true)]
    currentTab := "all" }

/-- A concrete pinned quick card. -/
def sampleCard : QuickCard :=
  { id := "q1", label := "Water", inputDetails := "daily", icon := "💧", pinned := true }

end PlantTrackR

/-! Claim theorems start here (they grow at the end of the file). -/

namespace PlantTrackR

/-! ## Helper lemmas on the container embeddings -/

theorem objLookup_objSet (m : List (String × Bool)) (k k' : String) (v : Bool) :
    objLookup (objSet m k v) k' = if k' = k then some v else objLookup m k' := by
  unfold objLookup objSet
  by_cases ha : (m.any fun kv => kv.1 == k) = true
  · simp only [ha, if_true, List.find?_map]
    have hcomp : ((fun kv : String × Bool => kv.1 == k') ∘
        fun kv => if (kv.1 == k) = true then (kv.1, v) else kv) =
        fun kv : String × Bool => kv.1 == k' := by
      funext kv
      by_cases hk : kv.1 = k <;> simp [hk]
    rw [hcomp]
    by_cases h : k' = k
    · subst h
      rcases List.any_eq_true.mp ha with ⟨x, hx, hpx⟩
      have hs : (List.find? (fun kv : String × Bool => kv.1 == k') m).isSome :=
        List.find?_isSome.mpr ⟨x, hx, hpx⟩
      rcases Option.isSome_iff_exists.mp hs with ⟨y, hy⟩
      have hpy := List.find?_some hy
      simp only [beq_iff_eq] at hpy
      simp [hy, hpy]
    · cases hfind : List.find? (fun kv : String × Bool => kv.1 == k') m with
      | none => simp [hfind, h]
      | some y =>
        have hpy := List.find?_some hfind
        simp only [beq_iff_eq] at hpy
        have hyk : ¬y.1 = k := fun hc => h (by rw [← hpy, hc])
        simp [hfind, h, hyk]
  · simp only [ha, if_false, List.find?_append]
    have hnone : List.find? (fun kv : String × Bool => kv.1 == k) m = none := by
      refine List.find?_eq_none.mpr fun x hx => ?_
      intro hpx
      exact ha (List.any_eq_true.mpr ⟨x, hx, hpx⟩)
    by_cases h : k' = k
    · subst h
      simp [hnone, List.find?]
    · have hb : (k == k') = false := by
        simp only [beq_eq_false_iff_ne]
        exact fun hc => h hc.symm
      simp [List.find?, hb, h]

theorem objLookup_objDelete (m : List (String × Bool)) (k k' : String) :
    objLookup (objDelete m k) k' = if k' = k then none else objLookup m k' := by
  unfold objLookup objDelete
  rw [List.find?_filter]
  by_cases h : k' = k
  · subst h
    have hnone : List.find?
        (fun a : String × Bool => decide ((a.1 != k') = true ∧ (a.1 == k') = true)) m
        = none := by
      refine List.find?_eq_none.mpr fun x hx => ?_
      by_cases hk : (x.1 == k') = true <;> simp [bne, hk]
    simp [hnone]
  · have hcomp : (fun a : String × Bool => decide ((a.1 != k) = true ∧ (a.1 == k') = true))
        = fun a : String × Bool => a.1 == k' := by
      funext a
      by_cases hk : a.1 = k
      · have h1 : (a.1 != k) = false := by simp [bne, hk]
        have h2 : (a.1 == k') = false := by
          simp only [beq_eq_false_iff_ne]
          exact fun hc => h (by rw [← hc, hk])
        simp [h1, h2]
      · have h1 : (a.1 != k) = true := by simp [bne, hk]
        by_cases hq : a.1 = k' <;> simp [h1, hq, h]
    rw [hcomp]
    simp [h]

theorem eraseIdx_concat_length (l : List Plant) (a : Plant) :
    (l ++ [a]).eraseIdx l.length = l := by
  induction l with
  | nil => rfl
  | cons x l ih => simpa [List.eraseIdx] using ih

theorem get?_concat_length' (l : List Plant) (a : Plant) :
    (l ++ [a]).get? l.length = some a := by
  induction l with
  | nil => rfl
  | cons x l ih => simp [ih]

end PlantTrackR

namespace PlantTrackR

/-- Claim C1: for every plant p, every phase value ph and every value of
the wall clock, updatePhase sets the phase to ph, appends exactly one
event of type "Phase Changed to ph" dated with the current date, and
changes no other field of the plant. -/
theorem updatePhase_sets_phase_and_appends_event
    (p : Plant) (ph today : String) :
    (p.updatePhase ph today).phase = ph ∧
    (p.updatePhase ph today).events
      = p.events ++ [{ type := "Phase Changed to " ++ ph, date := today }] ∧
    (p.updatePhase ph today).name = p.name ∧
    (p.updatePhase ph today).seedDate = p.seedDate ∧
    (p.updatePhase ph today).strain = p.strain ∧
    (p.updatePhase ph today).growMedium = p.growMedium ∧
    (p.updatePhase ph today).lightCycle = p.lightCycle ∧
    (p.updatePhase ph today).nutrientSchedule = p.nutrientSchedule ∧
    (p.updatePhase ph today).id = p.id ∧
    (p.updatePhase ph today).heightData = p.heightData ∧
    (p.updatePhase ph today).weightData = p.weightData := by
  simp [Plant.updatePhase, Plant.addEvent]

end PlantTrackR


namespace PlantTrackR

theorem loadArchivedPlantsAux_get? (freshIds : Nat → String) (stored : List Plant)
    (j i : Nat) (sp : Plant) (hsp : stored.get? i = some sp) :
    (loadArchivedPlantsAux freshIds j stored).get? i
      = some (loadArchivedPlant (freshIds (j + i)) sp) := by
  induction stored generalizing j i with
  | nil => simp at hsp
  | cons x rest ih =>
    cases i with
    | zero =>
      simp only [List.get?] at hsp
      cases hsp
      simp [loadArchivedPlantsAux]
    | succ i =>
      simp only [List.get?] at hsp
      have := ih (j + 1) i hsp
      simp only [loadArchivedPlantsAux, List.get?]
      rw [this]
      have harith : j + 1 + i = j + (i + 1) := by omega
      rw [harith]

/-- Claim C10: reloading the archived collection reconstructs each
archived plant from only its name, seed date, id and events; the phase is
reset to the first phase value and the free-text attributes and the
measurement series are reset to their empty defaults, even when non-default
values were persisted. -/
theorem loadArchivedPlants_resets_transients
    (freshIds : Nat → String) (stored : List Plant) (i : Nat) (sp : Plant)
    (hsp : stored.get? i = some sp) :
    (loadArchivedPlants freshIds stored).get? i
        = some (loadArchivedPlant (freshIds i) sp) ∧
    (loadArchivedPlant (freshIds i) sp).phase = defaultPhase ∧
    (loadArchivedPlant (freshIds i) sp).strain = "" ∧
    (loadArchivedPlant (freshIds i) sp).growMedium = "" ∧
    (loadArchivedPlant (freshIds i) sp).lightCycle = "" ∧
    (loadArchivedPlant (freshIds i) sp).nutrientSchedule = "" ∧
    (loadArchivedPlant (freshIds i) sp).heightData = [] ∧
    (loadArchivedPlant (freshIds i) sp).weightData = [] ∧
    (loadArchivedPlant (freshIds i) sp).name = sp.name ∧
    (loadArchivedPlant (freshIds i) sp).seedDate = sp.seedDate ∧
    (loadArchivedPlant (freshIds i) sp).events = sp.events := by
  refine ⟨?_, ?_, ?_, ?_, ?_, ?_, ?_, ?_, ?_, ?_, ?_⟩
  · have := loadArchivedPlantsAux_get? freshIds stored 0 i sp hsp
    simpa [loadArchivedPlants] using this
  all_goals simp [loadArchivedPlant, Plant.make, jsOrEmpty, jsOrDefault]

/-- Witness for claim C10 at a concrete stored plant with every
transient field at a non-default persisted value. -/
theorem loadArchivedPlants_resets_transients_witness :
    (loadArchivedPlants (fun _ => "u1") [samplePlant]).get? 0
        = some (loadArchivedPlant "u1" samplePlant) ∧
    (loadArchivedPlant "u1" samplePlant).phase = defaultPhase ∧
    (loadArchivedPlant "u1" samplePlant).strain = "" ∧
    (loadArchivedPlant "u1" samplePlant).growMedium = "" ∧
    (loadArchivedPlant "u1" samplePlant).lightCycle = "" ∧
    (loadArchivedPlant "u1" samplePlant).nutrientSchedule = "" ∧
    (loadArchivedPlant "u1" samplePlant).heightData = [] ∧
    (loadArchivedPlant "u1" samplePlant).weightData = [] ∧
    (loadArchivedPlant "u1" samplePlant).name = samplePlant.name ∧
    (loadArchivedPlant "u1" samplePlant).seedDate = samplePlant.seedDate ∧
    (loadArchivedPlant "u1" samplePlant).events = samplePlant.events :=
  loadArchivedPlants_resets_transients (fun _ => "u1") [samplePlant] 0 samplePlant (by rfl)

end PlantTrackR

namespace PlantTrackR

/-- Claim C4: addEventToSelectedPlants returns 0 and mutates nothing when
the selection is empty, the type is empty or the date fails parseDate;
otherwise it appends exactly one event to every plant whose id is in the
selection, leaves unselected plants unchanged, and returns the number of
plants updated. -/
theorem addEventToSelectedPlants_spec (s : ManagerState) (t d : String) :
    ((s.selectedPlants = [] ∨ t = "" ∨ parseDate d = none) →
      addEventToSelectedPlants s t d = (0, s)) ∧
    (s.selectedPlants ≠ [] → t ≠ "" → parseDate d ≠ none →
      (addEventToSelectedPlants s t d).1
          = (s.plants.filter fun p => setHas s.selectedPlants p.id).length ∧
      (∀ i : Nat, (addEventToSelectedPlants s t d).2.plants.get? i
          = (s.plants.get? i).map fun p =>
              if setHas s.selectedPlants p.id then p.addEvent t d else p) ∧
      (addEventToSelectedPlants s t d).2.archivedPlants = s.archivedPlants ∧
      (addEventToSelectedPlants s t d).2.selectedPlants = s.selectedPlants ∧
      (addEventToSelectedPlants s t d).2.expandedEvents = s.expandedEvents) := by
  constructor
  · rintro (h | h | h) <;> simp [addEventToSelectedPlants, h]
  · intro h1 h2 h3
    have hl : ¬s.selectedPlants.length = 0 := by
      simpa [List.length_eq_zero] using h1
    have hn : (parseDate d).isNone = false := by
      cases hp : parseDate d with
      | none => exact absurd hp h3
      | some v => rfl
    refine ⟨?_, ?_, ?_, ?_, ?_⟩ <;>
      simp [addEventToSelectedPlants, hl, h2, hn, List.get?_eq_getElem?, List.getElem?_map]

/-- Witness for claim C4: the sample state has one selected plant; adding
a valid event yields count 1 and appends the event to that plant. -/
theorem addEventToSelectedPlants_spec_witness :
    (addEventToSelectedPlants sampleState "Watered" "2024-06-01").1
        = (sampleState.plants.filter fun p => setHas sampleState.selectedPlants p.id).length ∧
    (∀ i : Nat, (addEventToSelectedPlants sampleState "Watered" "2024-06-01").2.plants.get? i
        = (sampleState.plants.get? i).map fun p =>
            if setHas sampleState.selectedPlants p.id
            then p.addEvent "Watered" "2024-06-01" else p) ∧
    (addEventToSelectedPlants sampleState "Watered" "2024-06-01").2.archivedPlants
        = sampleState.archivedPlants ∧
    (addEventToSelectedPlants sampleState "Watered" "2024-06-01").2.selectedPlants
        = sampleState.selectedPlants ∧
    (addEventToSelectedPlants sampleState "Watered" "2024-06-01").2.expandedEvents
        = sampleState.expandedEvents :=
  (addEventToSelectedPlants_spec sampleState "Watered" "2024-06-01").2
    (by decide) (by decide) (by decide)

/-- Claim C8: addPlant fails (false, no change) on an empty name, an empty
seed date or a seed date rejected by parseDate; on success it appends one
plant with the given name and seed date, the default first phase, the
fresh id, empty event and measurement sequences, records a collapsed
expanded-state entry for it, and adds the new id to the selection exactly
when the selection was already non-empty. -/
theorem addPlant_spec (s : ManagerState) (name seedDate : String)
    (strain gm lc ns : Option String) (fresh : String) :
    ((name = "" ∨ seedDate = "" ∨ parseDate seedDate = none) →
      addPlant s name seedDate strain gm lc ns fresh = (false, s)) ∧
    (name ≠ "" → seedDate ≠ "" → parseDate seedDate ≠ none →
      (addPlant s name seedDate strain gm lc ns fresh).1 = true ∧
      (addPlant s name seedDate strain gm lc ns fresh).2.plants
          = s.plants ++ [Plant.make name seedDate none strain gm lc ns fresh] ∧
      (Plant.make name seedDate none strain gm lc ns fresh).name = name ∧
      (Plant.make name seedDate none strain gm lc ns fresh).seedDate = seedDate ∧
      (Plant.make name seedDate none strain gm lc ns fresh).phase = defaultPhase ∧
      (Plant.make name seedDate none strain gm lc ns fresh).id = fresh ∧
      (Plant.make name seedDate none strain gm lc ns fresh).events = [] ∧
      (Plant.make name seedDate none strain gm lc ns fresh).heightData = [] ∧
      (Plant.make name seedDate none strain gm lc ns fresh).weightData = [] ∧
      objLookup (addPlant s name seedDate strain gm lc ns fresh).2.expandedEvents fresh
          = some false ∧
      (addPlant s name seedDate strain gm lc ns fresh).2.archivedPlants
          = s.archivedPlants ∧
      (s.selectedPlants = [] →
        (addPlant s name seedDate strain gm lc ns fresh).2.selectedPlants = []) ∧
      (s.selectedPlants ≠ [] →
        (addPlant s name seedDate strain gm lc ns fresh).2.selectedPlants
            = setAdd s.selectedPlants fresh)) := by
  constructor
  · rintro (h | h | h) <;> simp [addPlant, h]
  · intro h1 h2 h3
    have hn : (parseDate seedDate).isNone = false := by
      cases hp : parseDate seedDate with
      | none => exact absurd hp h3
      | some v => rfl
    have hid : (Plant.make name seedDate none strain gm lc ns fresh).id = fresh := by
      simp [Plant.make, jsOrDefault]
    refine ⟨?_, ?_, ?_, ?_, ?_, ?_, ?_, ?_, ?_, ?_, ?_, ?_, ?_⟩
    · simp [addPlant, h1, h2, hn]
    · simp [addPlant, h1, h2, hn]
    · simp [Plant.make]
    · simp [Plant.make]
    · simp [Plant.make]
    · exact hid
    · simp [Plant.make]
    · simp [Plant.make]
    · simp [Plant.make]
    · have hee : (addPlant s name seedDate strain gm lc ns fresh).2.expandedEvents
          = objSet s.expandedEvents
              (Plant.make name seedDate none strain gm lc ns fresh).id false := by
        simp [addPlant, h1, h2, hn]
      rw [hee, hid, objLookup_objSet]
      simp
    · simp [addPlant, h1, h2, hn]
    · intro hsel
      simp [addPlant, h1, h2, hn, hsel]
    · intro hsel
      have hpos : s.selectedPlants.length > 0 := by
        cases hc : s.selectedPlants with
        | nil => exact absurd hc hsel
        | cons a l => simp [hc]
      simp [addPlant, h1, h2, hn, hpos, hid]

/-- Witness for claim C8: adding a valid plant to the sample state (whose
selection is non-empty). -/
theorem addPlant_spec_witness :
    (addPlant sampleState "Basil" "2024-05-01" none none none none "u2").1 = true ∧
    (addPlant sampleState "Basil" "2024-05-01" none none none none "u2").2.plants
        = sampleState.plants
            ++ [Plant.make "Basil" "2024-05-01" none none none none none "u2"] ∧
    (Plant.make "Basil" "2024-05-01" none none none none none "u2").name = "Basil" ∧
    (Plant.make "Basil" "2024-05-01" none none none none none "u2").seedDate
        = "2024-05-01" ∧
    (Plant.make "Basil" "2024-05-01" none none none none none "u2").phase = defaultPhase ∧
    (Plant.make "Basil" "2024-05-01" none none none none none "u2").id = "u2" ∧
    (Plant.make "Basil" "2024-05-01" none none none none none "u2").events = [] ∧
    (Plant.make "Basil" "2024-05-01" none none none none none "u2").heightData = [] ∧
    (Plant.make "Basil" "2024-05-01" none none none none none "u2").weightData = [] ∧
    objLookup
        (addPlant sampleState "Basil" "2024-05-01" none none none none "u2").2.expandedEvents
        "u2" = some false ∧
    (addPlant sampleState "Basil" "2024-05-01" none none none none "u2").2.archivedPlants
        = sampleState.archivedPlants ∧
    (sampleState.selectedPlants = [] →
      (addPlant sampleState "Basil" "2024-05-01" none none none none "u2").2.selectedPlants
          = []) ∧
    (sampleState.selectedPlants ≠ [] →
      (addPlant sampleState "Basil" "2024-05-01" none none none none "u2").2.selectedPlants
          = setAdd sampleState.selectedPlants "u2") :=
  (addPlant_spec sampleState "Basil" "2024-05-01" none none none none "u2").2
    (by decide) (by decide) (by decide)

end PlantTrackR

namespace PlantTrackR

/-- Claim C5: archiving a plant and unarchiving it in the same session
returns the very same plant record (hence an identical serialized form) to
the active collection; the only state difference is that its expand-state
entry is reset to collapsed. -/
theorem archive_unarchive_roundtrip (s : ManagerState) (i : Nat) (p : Plant)
    (hp : s.plants.get? i = some p) :
    (archivePlant s i).1 = true ∧
    (unarchivePlant (archivePlant s i).2 s.archivedPlants.length).1 = true ∧
    (unarchivePlant (archivePlant s i).2 s.archivedPlants.length).2.plants
        = s.plants.eraseIdx i ++ [p] ∧
    (unarchivePlant (archivePlant s i).2 s.archivedPlants.length).2.archivedPlants
        = s.archivedPlants ∧
    (unarchivePlant (archivePlant s i).2 s.archivedPlants.length).2.selectedPlants
        = s.selectedPlants ∧
    (unarchivePlant (archivePlant s i).2 s.archivedPlants.length).2.currentTab
        = s.currentTab ∧
    objLookup
        (unarchivePlant (archivePlant s i).2 s.archivedPlants.length).2.expandedEvents
        p.id = some false ∧
    (∀ k, k ≠ p.id →
      objLookup
          (unarchivePlant (archivePlant s i).2 s.archivedPlants.length).2.expandedEvents
          k = objLookup s.expandedEvents k) := by
  have hp' : s.plants[i]? = some p := by
    rw [← List.get?_eq_getElem?]
    exact hp
  have h1 : archivePlant s i =
      (true,
        { s with
          plants := s.plants.eraseIdx i
          expandedEvents := objDelete s.expandedEvents p.id
          archivedPlants := s.archivedPlants ++ [p] }) := by
    simp [archivePlant, hp']
  have h2 : unarchivePlant (archivePlant s i).2 s.archivedPlants.length =
      (true,
        { s with
          plants := s.plants.eraseIdx i ++ [p]
          expandedEvents := objSet (objDelete s.expandedEvents p.id) p.id false
          archivedPlants := s.archivedPlants }) := by
    rw [h1]
    simp [unarchivePlant, get?_concat_length', eraseIdx_concat_length]
  refine ⟨by rw [h1], by rw [h2], by rw [h2], by rw [h2], by rw [h2], by rw [h2], ?_, ?_⟩
  · rw [h2]
    simp [objLookup_objSet]
  · intro k hk
    rw [h2]
    simp only
    rw [objLookup_objSet _ _ _ _ , objLookup_objDelete]
    simp [hk]

/-- Witness for claim C5: archiving then unarchiving the sample plant. -/
theorem archive_unarchive_roundtrip_witness :
    (archivePlant sampleState 0).1 = true ∧
    (unarchivePlant (archivePlant sampleState 0).2
        sampleState.archivedPlants.length).1 = true ∧
    (unarchivePlant (archivePlant sampleState 0).2
        sampleState.archivedPlants.length).2.plants
        = sampleState.plants.eraseIdx 0 ++ [samplePlant] ∧
    (unarchivePlant (archivePlant sampleState 0).2
        sampleState.archivedPlants.length).2.archivedPlants
        = sampleState.archivedPlants ∧
    (unarchivePlant (archivePlant sampleState 0).2
        sampleState.archivedPlants.length).2.selectedPlants
        = sampleState.selectedPlants ∧
    (unarchivePlant (archivePlant sampleState 0).2
        sampleState.archivedPlants.length).2.currentTab
        = sampleState.currentTab ∧
    objLookup
        (unarchivePlant (archivePlant sampleState 0).2
          sampleState.archivedPlants.length).2.expandedEvents
        samplePlant.id = some false ∧
    (∀ k, k ≠ samplePlant.id →
      objLookup
          (unarchivePlant (archivePlant sampleState 0).2
            sampleState.archivedPlants.length).2.expandedEvents
          k = objLookup sampleState.expandedEvents k) :=
  archive_unarchive_roundtrip sampleState 0 samplePlant (by rfl)

theorem find?_modifyFirst (l : List Plant) (pred : Plant → Bool) (f : Plant → Plant)
    (hpres : ∀ x, pred x = true → pred (f x) = true)
    (x : Plant) (hx : l.find? pred = some x) :
    (modifyFirst pred f l).find? pred = some (f x) := by
  induction l with
  | nil => simp at hx
  | cons a l ih =>
    by_cases ha : pred a = true
    · rw [List.find?_cons_of_pos _ ha] at hx
      have hax : a = x := by injection hx
      subst hax
      have hfa := hpres a ha
      have hred : modifyFirst pred f (a :: l) = f a :: l := by
        simp [modifyFirst, ha]
      rw [hred, List.find?_cons_of_pos _ hfa]
    · have ha' : ¬pred a = true := ha
      rw [List.find?_cons_of_neg _ ha'] at hx
      have := ih hx
      have hred : modifyFirst pred f (a :: l) = a :: modifyFirst pred f l := by
        simp [modifyFirst, ha]
      rw [hred, List.find?_cons_of_neg _ ha']
      exact this

/-- Claim C6: a quick-card drop is a no-op when the target id is not in
the active collection or when the target plant already has an event with
the cards label dated today; dropping the same card on the same plant
twice on the same day leaves the state of the first drop unchanged, and
starting from a plant without such an event the target ends up with
exactly one such event. -/
theorem logQuickCardToPlant_idempotent (s : ManagerState) (pid label today : String) :
    (s.plants.find? (fun p => p.id == pid) = none →
      logQuickCardToPlant s pid label today = s) ∧
    (∀ plant, s.plants.find? (fun p => p.id == pid) = some plant →
      plant.events.any (fun e => e.type == label && e.date == today) = true →
      logQuickCardToPlant s pid label today = s) ∧
    (logQuickCardToPlant (logQuickCardToPlant s pid label today) pid label today
      = logQuickCardToPlant s pid label today) ∧
    (∀ plant, s.plants.find? (fun p => p.id == pid) = some plant →
      plant.events.countP (fun e => e.type == label && e.date == today) = 0 →
      ∃ plant1,
        (logQuickCardToPlant s pid label today).plants.find? (fun p => p.id == pid)
            = some plant1 ∧
        plant1.events.countP (fun e => e.type == label && e.date == today) = 1) := by
  have hpres : ∀ x : Plant, (x.id == pid) = true →
      ((x.addEvent label today).id == pid) = true := fun x hx => hx
  refine ⟨?_, ?_, ?_, ?_⟩
  · intro h
    simp [logQuickCardToPlant, h]
  · intro plant hfind hany
    simp [logQuickCardToPlant, hfind, hany]
  · cases hfind : s.plants.find? (fun p => p.id == pid) with
    | none => simp [logQuickCardToPlant, hfind]
    | some plant =>
      by_cases hany : plant.events.any (fun e => e.type == label && e.date == today) = true
      · simp [logQuickCardToPlant, hfind, hany]
      · have hstep : logQuickCardToPlant s pid label today =
            { s with plants := modifyFirst (fun p => p.id == pid) (fun p => p.addEvent label today) s.plants } := by
          simp [logQuickCardToPlant, hfind, hany]
        have hfind1 : (modifyFirst (fun p => p.id == pid)
            (fun p => p.addEvent label today) s.plants).find? (fun p => p.id == pid)
            = some (plant.addEvent label today) :=
          find?_modifyFirst _ _ _ hpres plant hfind
        have hany1 : (plant.addEvent label today).events.any
            (fun e => e.type == label && e.date == today) = true := by
          simp [Plant.addEvent]
        rw [hstep]
        simp [logQuickCardToPlant, hfind1, hany1]
  · intro plant hfind hcount
    have hany : plant.events.any (fun e => e.type == label && e.date == today) = false := by
      cases hc : plant.events.any (fun e => e.type == label && e.date == today) with
      | false => rfl
      | true =>
        rcases List.any_eq_true.mp hc with ⟨e, he, hpe⟩
        have : 0 < plant.events.countP (fun e => e.type == label && e.date == today) :=
          List.countP_pos_iff.mpr ⟨e, he, hpe⟩
        omega
    have hstep : logQuickCardToPlant s pid label today =
        { s with plants := modifyFirst (fun p => p.id == pid) (fun p => p.addEvent label today) s.plants } := by
      simp [logQuickCardToPlant, hfind, hany]
    refine ⟨plant.addEvent label today, ?_, ?_⟩
    · rw [hstep]
      exact find?_modifyFirst _ _ _ hpres plant hfind
    · simp [Plant.addEvent, List.countP_append, hcount, List.countP_cons]

/-- Witness for claim C6: dropping a Fed card on the sample plant, which
has no Fed event dated today, yields exactly one such event. -/
theorem logQuickCardToPlant_idempotent_witness :
    ∃ plant1,
      (logQuickCardToPlant sampleState "p1" "Fed" "2024-06-01").plants.find?
          (fun p => p.id == "p1") = some plant1 ∧
      plant1.events.countP (fun e => e.type == "Fed" && e.date == "2024-06-01") = 1 :=
  (logQuickCardToPlant_idempotent sampleState "p1" "Fed" "2024-06-01").2.2.2
    samplePlant (by decide) (by decide)

end PlantTrackR

namespace PlantTrackR

/-- Claim C9 counterexample: the quick-card JSON round trip does not
preserve the full plain-data shape: on a concrete pinned card, fromJSON
of toJSON resets pinned to false and carries a freshly generated id. -/
theorem fromJSON_toJSON_not_full_roundtrip :
    (QuickCard.fromJSON (QuickCard.toJSON sampleCard) "q2").pinned ≠ sampleCard.pinned ∧
    (QuickCard.fromJSON (QuickCard.toJSON sampleCard) "q2").id ≠ sampleCard.id := by
  decide

/-- Claim C9 amended: the round trip preserves label, inputDetails and
icon; the id is regenerated (a fresh generateUUID result) and pinned is
reset to false, because fromJSON calls the constructor and never reads the
id and pinned fields of the record. -/
theorem fromJSON_toJSON_partial_roundtrip (q : QuickCard) (fresh : String) :
    (QuickCard.fromJSON (QuickCard.toJSON q) fresh).label = q.label ∧
    (QuickCard.fromJSON (QuickCard.toJSON q) fresh).inputDetails = q.inputDetails ∧
    (QuickCard.fromJSON (QuickCard.toJSON q) fresh).icon = q.icon ∧
    (QuickCard.fromJSON (QuickCard.toJSON q) fresh).id = fresh ∧
    (QuickCard.fromJSON (QuickCard.toJSON q) fresh).pinned = false := by
  simp [QuickCard.fromJSON, QuickCard.toJSON, QuickCard.make]

/-- Claim C3 counterexample: archiving the selected sample plant removes
it from the active collection but leaves its id in the selection set, so
the selection is not restricted to active plant ids. -/
theorem archive_keeps_selection_cex :
    sampleState.plants.get? 0 = some samplePlant ∧
    samplePlant.id = "p1" ∧
    sampleState.selectedPlants = ["p1"] ∧
    (archivePlant sampleState 0).2.plants = [] ∧
    (archivePlant sampleState 0).2.selectedPlants = ["p1"] := by
  decide

/-- Claim C3 amended: archivePlant, deleteArchivedPlant and the delete
click handler drop the removed plants expanded-state entry in the same
operation, but none of them touches the selection set, so ids of archived
or deleted plants can remain selected. -/
theorem archive_delete_drop_expand_keep_selection (s : ManagerState) (i : Nat) :
    (∀ p, s.plants.get? i = some p →
      (archivePlant s i).2.selectedPlants = s.selectedPlants ∧
      objLookup (archivePlant s i).2.expandedEvents p.id = none) ∧
    (∀ p, s.archivedPlants.get? i = some p →
      (deleteArchivedPlant s i).2.selectedPlants = s.selectedPlants ∧
      objLookup (deleteArchivedPlant s i).2.expandedEvents p.id = none) ∧
    (s.currentTab = "all" → ∀ p, s.plants.get? i = some p →
      (deletePlantClick s i).selectedPlants = s.selectedPlants ∧
      objLookup (deletePlantClick s i).expandedEvents p.id = none ∧
      (deletePlantClick s i).plants = s.plants.eraseIdx i) := by
  refine ⟨?_, ?_, ?_⟩
  · intro p hp
    have hp' : s.plants[i]? = some p := by
      rw [← List.get?_eq_getElem?]
      exact hp
    constructor
    · simp [archivePlant, hp']
    · have : (archivePlant s i).2.expandedEvents = objDelete s.expandedEvents p.id := by
        simp [archivePlant, hp']
      rw [this, objLookup_objDelete]
      simp
  · intro p hp
    have hp' : s.archivedPlants[i]? = some p := by
      rw [← List.get?_eq_getElem?]
      exact hp
    constructor
    · simp [deleteArchivedPlant, hp']
    · have : (deleteArchivedPlant s i).2.expandedEvents
          = objDelete s.expandedEvents p.id := by
        simp [deleteArchivedPlant, hp']
      rw [this, objLookup_objDelete]
      simp
  · intro htab p hp
    have hfilter : filterPlantsByPhase s s.currentTab = s.plants := by
      simp [filterPlantsByPhase, htab]
    have hp' : (filterPlantsByPhase s s.currentTab)[i]? = some p := by
      rw [hfilter, ← List.get?_eq_getElem?]
      exact hp
    refine ⟨?_, ?_, ?_⟩
    · simp [deletePlantClick, hp']
    · have : (deletePlantClick s i).expandedEvents = objDelete s.expandedEvents p.id := by
        simp [deletePlantClick, hp']
      rw [this, objLookup_objDelete]
      simp
    · simp [deletePlantClick, hp']

/-- Witness for the amended claim C3, instantiated at the sample state. -/
theorem archive_delete_drop_expand_keep_selection_witness :
    (archivePlant sampleState 0).2.selectedPlants = sampleState.selectedPlants ∧
    objLookup (archivePlant sampleState 0).2.expandedEvents samplePlant.id = none :=
  (archive_delete_drop_expand_keep_selection sampleState 0).1 samplePlant (by rfl)

theorem importMapM_null (freshIds : Nat → String) (es : List Js) (i : Nat)
    (h : Js.null ∈ es) :
    importMapM (fun j e => plantOfImportJs (freshIds j) e) i es = none := by
  induction es generalizing i with
  | nil => simp at h
  | cons e es ih =>
    rcases List.mem_cons.mp h with he | he
    · subst he
      simp [importMapM, plantOfImportJs]
    · cases hfe : plantOfImportJs (freshIds i) e with
      | none => simp [importMapM, hfe]
      | some p => simp [importMapM, hfe, ih (i + 1) he]

/-- Claim C2 counterexample: importing the parsed text [null] returns
false (the element throws at property access), yet the expanded-events
map has already been cleared, so the pre-import in-memory state is not
fully retained. -/
theorem importPlants_not_atomic_cex :
    (importPlants sampleState (some (Js.arr [Js.null])) (fun _ => "u3")).1 = false ∧
    (importPlants sampleState (some (Js.arr [Js.null])) (fun _ => "u3")).2.expandedEvents
        = [] ∧
    sampleState.expandedEvents = [("p1", true)] ∧
    (importPlants sampleState (some (Js.arr [Js.null])) (fun _ => "u3")).2.expandedEvents
        ≠ sampleState.expandedEvents := by
  refine ⟨rfl, rfl, rfl, by decide⟩

/-- Claim C2 amended: when the text does not parse as JSON or parses to a
non-array, importPlants returns false with the whole state untouched.
There is no element-level required-field check: an element without any
fields imports successfully; and an array containing a null element makes
the call return false only after the expanded-events map has been reset,
so that failure is not atomic. -/
theorem importPlants_amended (s : ManagerState) (freshIds : Nat → String) :
    importPlants s none freshIds = (false, s) ∧
    (∀ j, j.isArr = false → importPlants s (some j) freshIds = (false, s)) ∧
    (∀ elems, Js.null ∈ elems →
      (importPlants s (some (Js.arr elems)) freshIds).1 = false ∧
      (importPlants s (some (Js.arr elems)) freshIds).2.plants = s.plants ∧
      (importPlants s (some (Js.arr elems)) freshIds).2.archivedPlants
          = s.archivedPlants ∧
      (importPlants s (some (Js.arr elems)) freshIds).2.expandedEvents = []) ∧
    (∀ fresh, (plantOfImportJs fresh (Js.obj [])).isSome = true) := by
  refine ⟨rfl, ?_, ?_, fun fresh => rfl⟩
  · intro j hj
    cases j with
    | null => rfl
    | bool b => rfl
    | num n => rfl
    | str t => rfl
    | arr es => simp [Js.isArr] at hj
    | obj kvs => rfl
  · intro elems h
    have hm := importMapM_null freshIds elems 0 h
    refine ⟨?_, ?_, ?_, ?_⟩ <;> simp [importPlants, hm]

/-- Witness for the amended claim C2: a parse result that is a plain
object (not an array) leaves the sample state untouched. -/
theorem importPlants_amended_witness :
    importPlants sampleState (some (Js.obj [])) (fun _ => "u4")
        = (false, sampleState) :=
  (importPlants_amended sampleState (fun _ => "u4")).2.1 (Js.obj []) rfl

end PlantTrackR

namespace PlantTrackR

/-- Claim C7 counterexample: parseDate accepts the unpadded string
2024-2-9, which is not a strict YYYY-MM-DD string, so the accepted set is
not exactly the strict calendar-valid YYYY-MM-DD strings. -/
theorem parseDate_accepts_nonstrict_cex :
    (parseDate "2024-2-9").isSome = true ∧ specStrictYMD "2024-2-9" = false := by
  decide

/-- Claim C7 amended: parseDate behaves as claimed on the listed vectors
(rejects 2024-02-30, 2024-13-01, bad-date and 2023-02-29; accepts the
leap-day 2024-02-29), and rejects every string with wrong segment count or
with a segment that coerces to NaN; but its acceptance is laxer than
strict YYYY-MM-DD, via the number coercion and the parseInt round-trip
(for example the unpadded 2024-2-9 is accepted). -/
theorem parseDate_amended :
    parseDate "2024-02-30" = none ∧
    parseDate "2024-13-01" = none ∧
    parseDate "bad-date" = none ∧
    parseDate "2023-02-29" = none ∧
    (parseDate "2024-02-29").isSome = true ∧
    (parseDate "2024-2-9").isSome = true ∧
    (∀ s, (jsSplit s '-').length ≠ 3 → parseDate s = none) ∧
    (∀ s seg, seg ∈ jsSplit s '-' → jsToNumber seg = JsNum.nan → parseDate s = none) := by
  refine ⟨by decide, by decide, by decide, by decide, by decide, by decide, ?_, ?_⟩
  · intro s h
    by_cases hs : s = ""
    · simp [parseDate, hs]
    · simp [parseDate, hs, h]
  · intro s seg hmem hnan
    by_cases hs : s = ""
    · simp [parseDate, hs]
    · by_cases hlen : (jsSplit s '-').length = 3
      · obtain ⟨a, b, c, habc⟩ := List.length_eq_three.mp hlen
        rw [habc] at hmem
        simp only [List.mem_cons, List.not_mem_nil, or_false] at hmem
        have hcond : jsToNumber a = JsNum.nan ∨ jsToNumber b = JsNum.nan ∨
            jsToNumber c = JsNum.nan := by
          rcases hmem with rfl | rfl | rfl
          · exact Or.inl hnan
          · exact Or.inr (Or.inl hnan)
          · exact Or.inr (Or.inr hnan)
        unfold parseDate
        rw [if_neg hs, habc]
        simp [hcond]
      · simp [parseDate, hs, hlen]

/-- Witness for the amended claim C7: a two-segment string is rejected. -/
theorem parseDate_amended_witness : parseDate "1-2" = none :=
  parseDate_amended.2.2.2.2.2.2.1 "1-2" (by decide)

end PlantTrackR
